import Mathlib

/-!
Verification development for the AutoSorter file-analysis pipeline
(src/config.py, src/watcher.py, src/worker.py, src/mover.py,
src/classifier.py).

Each definition is a shallow embedding of the corresponding Python
function; machine floats are modelled as exact rationals or reals,
filesystem and clock effects are passed in explicitly, and exceptions
are modelled with Except.
-/

namespace AutoSorter

/-! ## String helpers (os.path.splitext, str.lower, str.strip) -/

/-- Index of the last occurrence of the dot character in a character
list, mirroring CPython str.rfind of the extension separator. -/
def lastDotIdxAux : List Char → Nat → Option Nat → Option Nat
  | [], _, acc => acc
  | c :: cs, i, acc => lastDotIdxAux cs (i + 1) (if c = '.' then some i else acc)

def lastDotIdx (cs : List Char) : Option Nat :=
  lastDotIdxAux cs 0 none

/-- Embedding of os.path.splitext restricted to a basename (no
directory separators): the extension starts at the last dot, unless
every character before that dot is itself a dot (leading dots, as in
hidden files, never start an extension). -/
def splitext (s : String) : String × String :=
  match lastDotIdx s.data with
  | none => (s, "")
  | some k =>
    if (s.data.take k).any (fun c => c != '.') then
      (String.mk (s.data.take k), String.mk (s.data.drop k))
    else
      (s, "")

/-- Embedding of str.lower restricted to ASCII letters (the only case
distinction exercised by file extensions in this code base). -/
def strLower (s : String) : String :=
  String.mk (s.data.map Char.toLower)

/-- Python whitespace characters recognised by str.strip (ASCII part). -/
def isPySpace (c : Char) : Bool :=
  c = ' ' || c = '\t' || c = '\n' || c = '\r' || c = '\x0b' || c = '\x0c'

/-- Truth value of the Python test `not text or not text.strip()`:
the string is empty or consists of whitespace only. -/
def pyIsBlank (s : String) : Bool :=
  s.data.all isPySpace

/-! ## src/config.py -/

/-- SUPPORTED_EXTENSIONS from config.py, in insertion order. -/
def SUPPORTED_EXTENSIONS : List (String × List String) :=
  [("documents", [".pdf", ".docx", ".pptx"]),
   ("images", [".jpg", ".jpeg", ".png"]),
   ("code", [".py", ".ipynb", ".c", ".lex"])]

/-- ALL_SUPPORTED_EXTENSIONS from config.py: the union of all groups. -/
def ALL_SUPPORTED_EXTENSIONS : List String :=
  (SUPPORTED_EXTENSIONS.map Prod.snd).flatten

/-- The lowercased extension of a filename, as computed by
`os.path.splitext(p)[1].lower()` in config.py and watcher.py. -/
def extOf (filename : String) : String :=
  strLower (splitext filename).2

/-- Embedding of config.get_file_type: first group whose extension set
contains the lowercased extension, else none. -/
def get_file_type (filename : String) : Option String :=
  (SUPPORTED_EXTENSIONS.find? (fun g => g.2.contains (extOf filename))).map Prod.fst

/-! ## src/watcher.py -/

/-- Python dict assignment d[k] = v on an association list. -/
def dictInsert (l : List (String × ℚ)) (k : String) (v : ℚ) : List (String × ℚ) :=
  (k, v) :: l.filter (fun p => p.1 != k)

/-- Embedding of FileWatcher._on_new_file up to the point where a
readiness-wait thread is (or is not) spawned.  State is the
_recent_files map (path -> last-seen timestamp); the hard-coded
debounce window is 5 seconds.  Returns the updated map and whether a
wait-and-submit thread is started (events discarded by the debounce or
the extension filters start none).

watcher_ext_filter is the pair of sequential extension guards of
_on_new_file (ignored_extensions, then ALL_SUPPORTED_EXTENSIONS), each
returning early with no submission when it fires. -/
def watcher_ext_filter (ignored : List String) (path : String) : Bool :=
  if ignored.contains (extOf path) then false
  else if !(ALL_SUPPORTED_EXTENSIONS.contains (extOf path)) then false
  else true

def on_new_file (ignored : List String) (recent : List (String × ℚ))
    (path : String) (now : ℚ) : List (String × ℚ) × Bool :=
  match recent.lookup path with
  | some t =>
    if now - t < 5 then (recent, false)
    else (dictInsert recent path now, watcher_ext_filter ignored path)
  | none => (dictInsert recent path now, watcher_ext_filter ignored path)

/-- Number of worker-pool submissions that can result from one call of
_on_new_file: the spawned wait-and-submit thread calls submit at most
once (every path through _wait_and_submit returns right after its
single submit call, or without submitting). -/
def spawnCount (spawned : Bool) : Nat :=
  if spawned then 1 else 0

/-! ## src/mover.py -/

/-- Destination filename chosen by mover.move_file inside the category
folder: the original basename, unless a file of that name already
exists there, in which case the timestamp (strftime of the current
wall clock) is appended before the extension.  The collection of names
already present in the destination directory is passed in as
`existing`. -/
def move_file_dest (existing : List String) (filename ts : String) : String :=
  if filename ∈ existing then
    let ne := splitext filename
    ne.1 ++ "_" ++ ts ++ ne.2
  else filename

/-- Whether the final shutil.move of move_file lands on an occupied
name (shutil.move silently replaces an existing regular file at its
destination). -/
def move_overwrites (existing : List String) (filename ts : String) : Bool :=
  move_file_dest existing filename ts ∈ existing

/-- Status of the bytes stored under a name during a relocation. -/
inductive FileStatus where
  | writing
  | complete
deriving DecidableEq, Repr

/-- A directory snapshot: which names hold a file, and whether its
content is still being written or is complete. -/
abbrev Fs : Type := String → Option FileStatus

/-- Sequence of filesystem snapshots produced by the
`shutil.move(filepath, dest_path)` call in move_file (CPython
semantics for a regular file): on the same volume a single atomic
os.rename; across volumes an OSError from rename is caught and the
fallback copies the bytes to the final destination path itself
(copy2(src, real_dst)) and then unlinks the source, so the destination
name transiently holds a half-written file. -/
def moveStates (sameVolume : Bool) (src dst : String) : List Fs :=
  let init : Fs := fun p => if p = src then some .complete else none
  if sameVolume then
    [init, fun p => if p = dst then some .complete else none]
  else
    [init,
     fun p => if p = dst then some .writing
              else if p = src then some .complete else none,
     fun p => if p = dst then some .complete
              else if p = src then some .complete else none,
     fun p => if p = dst then some .complete else none]

/-! ## src/worker.py -/

/-- Environment of one WorkerPool._process_file job: the outcomes the
filesystem, the extractor, the classifier and the mover would deliver
for this file.  An Except.error value models the call raising an
exception. -/
structure JobEnv where
  filename : String
  fileExists : Bool
  extract : Except String String
  classify : Except String (String × ℚ)
  move : Except String String
  mtimeOrNow : ℚ
deriving Repr

/-- Outcome recorded by log_file_result (plus the silent early return
when the file has disappeared). -/
inductive Outcome where
  | missing
  | keptNoText
  | moved (category : String) (score : ℚ)
  | kept (category : String) (score : ℚ)
  | errorOut (msg : String)
deriving DecidableEq, Repr

structure JobResult where
  outcome : Outcome
  ledger : List (String × ℚ)
  moverCalled : Bool
deriving DecidableEq, Repr

/-- Embedding of WorkerPool._mark_processed: record basename ->
current mtime (or wall-clock time when mtime is unreadable; the choice
is folded into env.mtimeOrNow) and persist. -/
def mark_processed (ledger : List (String × ℚ)) (env : JobEnv) : List (String × ℚ) :=
  dictInsert ledger env.filename env.mtimeOrNow

/-- Embedding of WorkerPool._process_file.  The whole body runs inside
`try/except Exception`; every match arm that maps a step's
Except.error to an `.errorOut` result with the ledger unchanged is the
exception propagating to that boundary handler, which logs an ERROR
outcome and returns normally. -/
def process_file (threshold : ℚ) (env : JobEnv)
    (ledger : List (String × ℚ)) : JobResult :=
  if !env.fileExists then
    { outcome := .missing, ledger := ledger, moverCalled := false }
  else
    match env.extract with
    | .error e => { outcome := .errorOut e, ledger := ledger, moverCalled := false }
    | .ok text =>
      if pyIsBlank text then
        { outcome := .keptNoText, ledger := mark_processed ledger env
          moverCalled := false }
      else
        match env.classify with
        | .error e => { outcome := .errorOut e, ledger := ledger, moverCalled := false }
        | .ok (category, score) =>
          if threshold ≤ score then
            match env.move with
            | .error e =>
              { outcome := .errorOut e, ledger := ledger, moverCalled := true }
            | .ok _ =>
              { outcome := .moved category score
                ledger := mark_processed ledger env, moverCalled := true }
          else
            { outcome := .kept category score
              ledger := mark_processed ledger env, moverCalled := false }

/-- Embedding of WorkerPool._is_already_processed: membership of the
basename in the registry, then comparison of the stored mtime with the
current one (whose read may raise OSError, modelled by the Except
argument) under a strict one-second tolerance. -/
def is_already_processed (ledger : List (String × ℚ)) (filename : String)
    (mtimeRes : Except String ℚ) : Bool :=
  match ledger.lookup filename with
  | none => false
  | some recorded =>
    match mtimeRes with
    | .error _ => false
    | .ok current => |current - recorded| < 1

/-! ### Ledger access traces (synchronisation audit)

Line-by-line traces of the operations each WorkerPool method performs
on the shared processed_files map, including any lock operations.  The
source contains no threading.Lock (or any other mutex), so no trace
contains an acquire. -/

inductive RegOp where
  | acquireLock
  | releaseLock
  | readMap
  | writeMap
deriving DecidableEq, Repr

/-- Trace of _mark_processed: the dict assignment
processed_files[filename] = mtime (a write), then
_save_processed_files, whose json.dump iterates the whole map (a
read). -/
def mark_processed_ops : List RegOp :=
  [.writeMap, .readMap]

/-- Trace of _is_already_processed: the membership test
`filename not in self.processed_files` (a read), then, when the entry
exists, the lookup `self.processed_files[filename]` (a second read). -/
def is_already_processed_ops (entryExists : Bool) : List RegOp :=
  if entryExists then [.readMap, .readMap] else [.readMap]

/-- What the specification demands of a method trace: every access to
the map happens while holding the lock, which in particular requires
the trace to contain an acquire before any read or write. -/
def accessesLocked (ops : List RegOp) : Prop :=
  ∀ op ∈ ops, (op = RegOp.readMap ∨ op = RegOp.writeMap) →
    RegOp.acquireLock ∈ ops

instance (ops : List RegOp) : Decidable (accessesLocked ops) := by
  unfold accessesLocked; infer_instance

/-! ## src/classifier.py -/

/-- CHUNK_SIZE_WORDS from classifier.py. -/
def CHUNK_SIZE_WORDS : Nat := 200

/-- CHUNK_OVERLAP_WORDS from classifier.py. -/
def CHUNK_OVERLAP_WORDS : Nat := 50

/-- MAX_CHUNKS from classifier.py. -/
def MAX_CHUNKS : Nat := 20

/-- Helper for pyWords: scan the characters, collecting the current
word in reverse; whitespace ends the current word, and empty words are
dropped, exactly as Python str.split() with no argument does. -/
def pyWordsAux : List Char → List Char → List String
  | [], acc => if acc.isEmpty then [] else [String.mk acc.reverse]
  | c :: cs, acc =>
    if isPySpace c then
      if acc.isEmpty then pyWordsAux cs []
      else String.mk acc.reverse :: pyWordsAux cs []
    else pyWordsAux cs (c :: acc)

/-- Python text.split(): whitespace-separated words, empties dropped. -/
def pyWords (text : String) : List String :=
  pyWordsAux text.data []

/-- Embedding of ClassificationEngine._split_into_chunks: short texts
are one chunk; longer texts are cut into windows of 200 words starting
every 150 words (chunk size minus overlap), stopping after 20 chunks. -/
def split_into_chunks (text : String) : List String :=
  let words := pyWords text
  if words.length ≤ CHUNK_SIZE_WORDS then [text]
  else
    let step := CHUNK_SIZE_WORDS - CHUNK_OVERLAP_WORDS
    let starts := (List.range words.length).filter (fun i => i % step = 0)
    (starts.map (fun i =>
      String.intercalate " " ((words.drop i).take CHUNK_SIZE_WORDS))).take MAX_CHUNKS

/-- Dot product of two embedding vectors. -/
def dotF {n : ℕ} (u v : Fin n → ℝ) : ℝ :=
  ∑ i, u i * v i

/-- Euclidean norm of an embedding vector. -/
noncomputable def vnorm {n : ℕ} (u : Fin n → ℝ) : ℝ :=
  Real.sqrt (dotF u u)

/-- Cosine similarity as computed by sklearn
cosine_similarity: the dot product of the two vectors divided by the
product of their norms (a zero vector is left unnormalised, which in
real division yields similarity 0, matching sklearn). -/
noncomputable def cosineSim {n : ℕ} (u v : Fin n → ℝ) : ℝ :=
  dotF u v / (vnorm u * vnorm v)

/-- np.max over axis 0 of a row-major matrix: elementwise max of the
rows. -/
def colMaxes {α : Type} [LinearOrder α] : List (List α) → List α
  | [] => []
  | r :: rs => rs.foldl (fun acc row => List.zipWith max acc row) r

/-- Helper for np.argmax: scan with current index, best index and best
value; a strictly greater value replaces the best, so the first
occurrence of the maximum wins, as in numpy. -/
def argmaxAux {α : Type} [LinearOrder α] : List α → Nat → Nat → α → Nat
  | [], _, bi, _ => bi
  | x :: xs, i, bi, bv =>
    if bv < x then argmaxAux xs (i + 1) i x else argmaxAux xs (i + 1) bi bv

/-- np.argmax of a vector (0 on the empty vector, where numpy raises). -/
def listArgmax {α : Type} [LinearOrder α] : List α → Nat
  | [] => 0
  | x :: xs => argmaxAux xs 1 0 x

/-- Embedding of ClassificationEngine.classify.  The trained model is
the function `encode` from chunk text to embedding vector; the
precomputed state is the category name list and the optional category
embedding matrix.  Guard clauses mirror the source: no categories, or
blank text, or no chunks give ("UNKNOWN", 0.0).  Otherwise the
similarity matrix of all chunks against all categories is reduced by a
column-wise max and the best category and its score are returned
(indexing is total here via getD; when names and embeddings have equal
length, as precompute_categories guarantees, the index is in range). -/
noncomputable def classify {n : ℕ} (category_names : List String)
    (category_embeddings : Option (List (Fin n → ℝ)))
    (encode : String → Fin n → ℝ) (text : String) : String × ℝ :=
  match category_embeddings with
  | none => ("UNKNOWN", 0)
  | some cats =>
    if category_names.length = 0 then ("UNKNOWN", 0)
    else if pyIsBlank text then ("UNKNOWN", 0)
    else
      let chunks := split_into_chunks text
      if chunks.isEmpty then ("UNKNOWN", 0)
      else
        let chunk_embeddings := chunks.map encode
        let all_similarities :=
          chunk_embeddings.map (fun ch => cats.map (fun c => cosineSim ch c))
        let max_scores_per_category := colMaxes all_similarities
        let best_idx := listArgmax max_scores_per_category
        (category_names.getD best_idx "UNKNOWN",
         max_scores_per_category.getD best_idx 0)

/-! ## Theorems -/

/-- C1: whenever one of the pipeline steps of _process_file raises
(text extraction, classification, or the move), the job boundary
handler turns it into an ERROR outcome, the processed-files ledger is
unchanged, and the job returns normally (the exception is a value of
the total function process_file, so nothing propagates to the worker
pool). -/
theorem c1_error_boundary (threshold : ℚ) (env : JobEnv)
    (ledger : List (String × ℚ)) (e : String)
    (hex : env.fileExists = true)
    (hraise :
      env.extract = .error e ∨
      (∃ text, env.extract = .ok text ∧ pyIsBlank text = false ∧
        env.classify = .error e) ∨
      (∃ text category score, env.extract = .ok text ∧ pyIsBlank text = false ∧
        env.classify = .ok (category, score) ∧ threshold ≤ score ∧
        env.move = .error e)) :
    (process_file threshold env ledger).outcome = .errorOut e ∧
    (process_file threshold env ledger).ledger = ledger := by
  rcases hraise with h | ⟨text, h1, h2, h3⟩ | ⟨text, c, s, h1, h2, h3, h4, h5⟩
  · simp [process_file, hex, h]
  · simp [process_file, hex, h1, h2, h3]
  · simp [process_file, hex, h1, h2, h3, h4, h5]

def envC1 : JobEnv :=
  ⟨"f.pdf", true, .error "boom", .ok ("RL", 9/10), .ok "dest", 100⟩

theorem c1_error_boundary_witness :
    (process_file (1/2) envC1 []).outcome = .errorOut "boom" ∧
    (process_file (1/2) envC1 []).ledger = [] :=
  c1_error_boundary (1/2) envC1 [] "boom" rfl (Or.inl rfl)

/-- C2: for a file with non-empty extracted text, a classifier score
greater than or equal to the configured threshold (equality included)
moves the file into the category folder, while a score strictly below
the threshold keeps it in place; either way the file is marked
processed. -/
theorem c2_threshold_inclusive (threshold : ℚ) (env : JobEnv)
    (ledger : List (String × ℚ)) (text category : String) (score : ℚ)
    (dest : String)
    (hex : env.fileExists = true) (het : env.extract = .ok text)
    (hnb : pyIsBlank text = false)
    (hcl : env.classify = .ok (category, score))
    (hmv : env.move = .ok dest) :
    (threshold ≤ score →
      process_file threshold env ledger =
        ⟨.moved category score, mark_processed ledger env, true⟩) ∧
    (score < threshold →
      process_file threshold env ledger =
        ⟨.kept category score, mark_processed ledger env, false⟩) := by
  constructor
  · intro h
    simp [process_file, hex, het, hnb, hcl, hmv, h]
  · intro h
    simp [process_file, hex, het, hnb, hcl, hmv, not_le.mpr h]

def envC2 : JobEnv :=
  ⟨"f.pdf", true, .ok "hello", .ok ("RL", 1/2), .ok "dest", 100⟩

theorem c2_threshold_inclusive_witness :
    process_file (1/2) envC2 [] =
      ⟨.moved "RL" (1/2), mark_processed [] envC2, true⟩ ∧
    process_file (3/4) envC2 [] =
      ⟨.kept "RL" (1/2), mark_processed [] envC2, false⟩ :=
  ⟨(c2_threshold_inclusive (1/2) envC2 [] "hello" "RL" (1/2) "dest"
      rfl rfl rfl rfl rfl).1 le_rfl,
   (c2_threshold_inclusive (3/4) envC2 [] "hello" "RL" (1/2) "dest"
      rfl rfl rfl rfl rfl).2 (by norm_num)⟩

/-- C3: _is_already_processed returns true exactly when the registry
holds an entry for the basename and the current mtime was read
successfully with an absolute difference from the stored one strictly
below one second; an OSError while reading the mtime always yields
false. -/
theorem c3_is_already_processed (ledger : List (String × ℚ))
    (filename : String) (mtimeRes : Except String ℚ) :
    (is_already_processed ledger filename mtimeRes = true ↔
      ∃ recorded current, ledger.lookup filename = some recorded ∧
        mtimeRes = .ok current ∧ |current - recorded| < 1) ∧
    (∀ e, mtimeRes = .error e →
      is_already_processed ledger filename mtimeRes = false) := by
  unfold is_already_processed
  cases hl : ledger.lookup filename with
  | none => cases mtimeRes <;> simp
  | some recorded => cases mtimeRes <;> simp

theorem c3_is_already_processed_witness :
    is_already_processed [("a.pdf", (100 : ℚ))] "a.pdf" (.ok (201/2)) = true ∧
    is_already_processed [("a.pdf", (100 : ℚ))] "a.pdf" (.error "eno") = false :=
  ⟨(c3_is_already_processed [("a.pdf", (100 : ℚ))] "a.pdf" (.ok (201/2))).1.mpr
      ⟨100, 201/2, rfl, rfl, by rw [abs_lt]; constructor <;> norm_num⟩,
   (c3_is_already_processed [("a.pdf", (100 : ℚ))] "a.pdf" (.error "eno")).2
      "eno" rfl⟩

/-- C6: a job whose extracted text is empty or whitespace-only keeps
the file in place without ever invoking the Mover, records the
kept-no-text outcome and marks the file processed in the ledger; the
classifier and mover results in the environment are arbitrary, so the
behaviour is independent of the classifier state. -/
theorem c6_empty_text (threshold : ℚ) (env : JobEnv)
    (ledger : List (String × ℚ)) (text : String)
    (hex : env.fileExists = true) (het : env.extract = .ok text)
    (hb : pyIsBlank text = true) :
    process_file threshold env ledger =
      ⟨.keptNoText, dictInsert ledger env.filename env.mtimeOrNow, false⟩ := by
  simp [process_file, mark_processed, hex, het, hb]

def envC6 : JobEnv :=
  ⟨"e.pdf", true, .ok " \n", .error "classifier crashed",
   .error "mover crashed", 7⟩

theorem c6_empty_text_witness :
    process_file (1/2) envC6 [] =
      ⟨.keptNoText, [("e.pdf", 7)], false⟩ :=
  c6_empty_text (1/2) envC6 [] " \n" rfl rfl (by decide)

lemma on_new_file_fst_of_fresh (ignored : List String)
    (recent : List (String × ℚ)) (path : String) (now : ℚ)
    (h : recent.lookup path = none) :
    (on_new_file ignored recent path now).1 = dictInsert recent path now := by
  simp [on_new_file, h]

lemma lookup_dictInsert (l : List (String × ℚ)) (k : String) (v : ℚ) :
    (dictInsert l k v).lookup k = some v := by
  simp [dictInsert, List.lookup]

/-- C8: when a second filesystem notification for the same path
arrives within the hard-coded 5 second debounce window after a first
notification for a previously unseen path, the second is discarded
(the _recent_files state is left unchanged and no readiness-wait
thread starts), so the pair of notifications causes at most one
submission to the worker pool. -/
theorem c8_debounce (ignored : List String) (recent : List (String × ℚ))
    (path : String) (t1 t2 : ℚ)
    (hfresh : recent.lookup path = none) (hwin : t2 - t1 < 5) :
    on_new_file ignored (on_new_file ignored recent path t1).1 path t2 =
      ((on_new_file ignored recent path t1).1, false) ∧
    spawnCount (on_new_file ignored recent path t1).2 +
      spawnCount
        (on_new_file ignored (on_new_file ignored recent path t1).1 path t2).2
      ≤ 1 := by
  have hst : (on_new_file ignored recent path t1).1 = dictInsert recent path t1 :=
    on_new_file_fst_of_fresh ignored recent path t1 hfresh
  have hsecond :
      on_new_file ignored (on_new_file ignored recent path t1).1 path t2 =
        ((on_new_file ignored recent path t1).1, false) := by
    rw [hst]
    simp [on_new_file, lookup_dictInsert, hwin]
  refine ⟨hsecond, ?_⟩
  rw [hsecond]
  cases h : (on_new_file ignored recent path t1).2 <;> simp [spawnCount]

theorem c8_debounce_witness :
    on_new_file [] (on_new_file [] [] "a.pdf" 0).1 "a.pdf" 3 =
      ((on_new_file [] [] "a.pdf" 0).1, false) ∧
    spawnCount (on_new_file [] [] "a.pdf" 0).2 +
      spawnCount (on_new_file [] (on_new_file [] [] "a.pdf" 0).1 "a.pdf" 3).2
      ≤ 1 :=
  c8_debounce [] [] "a.pdf" 0 3 rfl (by norm_num)

/-- C10: the watcher's ignored/supported extension filter and
config.get_file_type both factor through the lowercased extension of
the path, so any two filenames whose extensions agree after
lowercasing (in particular, two filenames differing only in the letter
case of their extension) are filtered and typed identically. -/
theorem c10_case_insensitive_ext (ignored : List String) (p q : String)
    (h : strLower (splitext p).2 = strLower (splitext q).2) :
    get_file_type p = get_file_type q ∧
    watcher_ext_filter ignored p = watcher_ext_filter ignored q := by
  have hx : extOf p = extOf q := h
  constructor
  · simp only [get_file_type, hx]
  · simp only [watcher_ext_filter, hx]

theorem c10_case_insensitive_ext_witness :
    (get_file_type "Paper.PDF" = get_file_type "Paper.pdf" ∧
      watcher_ext_filter [".crdownload"] "Paper.PDF" =
        watcher_ext_filter [".crdownload"] "Paper.pdf") ∧
    get_file_type "Paper.PDF" = some "documents" :=
  ⟨c10_case_insensitive_ext [".crdownload"] "Paper.PDF" "Paper.pdf" (by decide),
   by decide⟩

lemma splitext_append (s : String) :
    (splitext s).1 ++ (splitext s).2 = s := by
  unfold splitext
  cases h : lastDotIdx s.data with
  | none => simp
  | some k =>
    by_cases hany : (s.data.take k).any (fun c => c != '.')
    · simp only [hany, if_true]
      show String.mk (s.data.take k ++ s.data.drop k) = s
      rw [List.take_append_drop]
    · simp [hany]

/-- C4 counterexample: when the timestamped disambiguated name itself
already exists at the destination, move_file still targets it and the
final shutil.move replaces that existing file, so the move as shipped
can overwrite an existing file. -/
theorem c4_counterexample :
    move_file_dest ["a.txt", "a_20240101_120000.txt"] "a.txt"
        "20240101_120000" = "a_20240101_120000.txt" ∧
    move_overwrites ["a.txt", "a_20240101_120000.txt"] "a.txt"
        "20240101_120000" = true := by
  constructor <;> rfl

/-- C4 (amended): on a name conflict the move targets the timestamped
name name_ts.ext, which always differs from the original conflicting
name, so the original destination file is never the target; and the
move overwrites nothing provided the timestamped name is not itself
already present at the destination. -/
theorem c4_timestamp_disambiguation (existing : List String)
    (filename ts : String) (hconflict : filename ∈ existing) :
    move_file_dest existing filename ts =
      (splitext filename).1 ++ "_" ++ ts ++ (splitext filename).2 ∧
    move_file_dest existing filename ts ≠ filename ∧
    (move_file_dest existing filename ts ∉ existing →
      move_overwrites existing filename ts = false) := by
  have hdest : move_file_dest existing filename ts =
      (splitext filename).1 ++ "_" ++ ts ++ (splitext filename).2 := by
    simp [move_file_dest, hconflict]
  refine ⟨hdest, ?_, ?_⟩
  · intro heq
    have hlen := congrArg String.length (hdest.symm.trans heq)
    have hsplit := congrArg String.length (splitext_append filename)
    have hu : ("_" : String).length = 1 := rfl
    simp only [String.length_append, hu] at hlen hsplit
    omega
  · intro hfree
    simp [move_overwrites, hfree]

theorem c4_timestamp_disambiguation_witness :
    move_overwrites ["a.txt"] "a.txt" "20240101_120000" = false ∧
    move_file_dest ["a.txt"] "a.txt" "20240101_120000" ≠ "a.txt" :=
  ⟨(c4_timestamp_disambiguation ["a.txt"] "a.txt" "20240101_120000"
      (by decide)).2.2 (by decide),
   (c4_timestamp_disambiguation ["a.txt"] "a.txt" "20240101_120000"
      (by decide)).2.1⟩

/-- C9: the WorkerPool methods that read and write the shared
processed-files map do so with no lock operation anywhere in their
bodies (the class owns no mutex at all), so the accesses of concurrent
worker threads are not mutually exclusive: the traces of
_mark_processed and _is_already_processed contain map reads and a map
write but no lock acquisition. -/
theorem c9_ledger_unsynchronised :
    ¬ accessesLocked mark_processed_ops ∧
    ¬ accessesLocked (is_already_processed_ops true) ∧
    ¬ accessesLocked (is_already_processed_ops false) ∧
    RegOp.writeMap ∈ mark_processed_ops := by
  refine ⟨?_, ?_, ?_, by decide⟩ <;> decide

/-- C5 counterexample: in the cross-volume case the shutil.move
fallback copies the bytes directly to the final destination path, so
immediately after the copy begins the destination's final name holds a
partially-written file — there is no copy-to-temporary-name followed
by a rename. -/
theorem c5_counterexample :
    ((moveStates false "s" "d").getD 1 (fun _ => none)) "d" =
      some FileStatus.writing := by
  rfl

/-- C5 (amended): a same-volume relocation is a single atomic rename
under which the destination never holds a partially-written file; a
cross-volume relocation copies directly to the final destination name
and then deletes the source, so a partially-written file is
transiently visible under the final name, while the final snapshot
has the complete file at the destination and the source gone. -/
theorem c5_move_visibility (src dst : String) (h : src ≠ dst) :
    (∀ fs ∈ moveStates true src dst, fs dst ≠ some FileStatus.writing) ∧
    ((moveStates false src dst).getD 1 (fun _ => none)) dst =
      some FileStatus.writing ∧
    ((moveStates false src dst).getD 3 (fun _ => none)) dst =
      some FileStatus.complete ∧
    ((moveStates false src dst).getD 3 (fun _ => none)) src = none := by
  refine ⟨?_, ?_, ?_, ?_⟩
  · intro fs hfs
    have hcases :
        fs = (fun p => if p = src then some FileStatus.complete else none) ∨
        fs = (fun p => if p = dst then some FileStatus.complete else none) := by
      simpa [moveStates] using hfs
    rcases hcases with rfl | rfl
    · simp [Ne.symm h]
    · simp
  · simp [moveStates]
  · simp [moveStates]
  · simp [moveStates, h]

theorem c5_move_visibility_witness :
    ((moveStates false "s" "d").getD 3 (fun _ => none)) "d" =
      some FileStatus.complete ∧
    ((moveStates false "s" "d").getD 3 (fun _ => none)) "s" = none :=
  ⟨(c5_move_visibility "s" "d" (by decide)).2.2.1,
   (c5_move_visibility "s" "d" (by decide)).2.2.2⟩

lemma dotF_self_nonneg {n : ℕ} (u : Fin n → ℝ) : 0 ≤ dotF u u :=
  Finset.sum_nonneg fun i _ => mul_self_nonneg (u i)

lemma abs_dotF_le {n : ℕ} (u v : Fin n → ℝ) :
    |dotF u v| ≤ vnorm u * vnorm v := by
  have hcs : dotF u v ^ 2 ≤ dotF u u * dotF v v := by
    have h := Finset.sum_mul_sq_le_sq_mul_sq Finset.univ u v
    simpa [dotF, pow_two] using h
  calc |dotF u v| = Real.sqrt (dotF u v ^ 2) := by rw [Real.sqrt_sq_eq_abs]
    _ ≤ Real.sqrt (dotF u u * dotF v v) := Real.sqrt_le_sqrt hcs
    _ = vnorm u * vnorm v := by
        rw [vnorm, vnorm, ← Real.sqrt_mul (dotF_self_nonneg u)]

lemma cosineSim_bounds {n : ℕ} (u v : Fin n → ℝ) :
    -1 ≤ cosineSim u v ∧ cosineSim u v ≤ 1 := by
  have hN0 : (0 : ℝ) ≤ vnorm u * vnorm v :=
    mul_nonneg (Real.sqrt_nonneg _) (Real.sqrt_nonneg _)
  have habs : |cosineSim u v| ≤ 1 := by
    unfold cosineSim
    rcases hN0.eq_or_lt with h0 | hpos
    · have hd : dotF u v = 0 := by
        have h1 := abs_dotF_le u v
        rw [← h0] at h1
        exact abs_eq_zero.mp (le_antisymm h1 (abs_nonneg _))
      simp [hd]
    · rw [abs_div, abs_of_pos hpos, div_le_one hpos]
      exact abs_dotF_le u v
  exact abs_le.mp habs

lemma getD_pred (P : ℝ → Prop) (l : List ℝ) (i : ℕ) (d : ℝ)
    (hl : ∀ x ∈ l, P x) (hd : P d) : P (l.getD i d) := by
  induction l generalizing i with
  | nil => simpa using hd
  | cons a t ih =>
    cases i with
    | zero => simpa using hl a (List.mem_cons_self a t)
    | succ j => simpa using ih j (fun x hx => hl x (List.mem_cons_of_mem a hx))

lemma zipWith_max_pred (P : ℝ → Prop) :
    ∀ (a b : List ℝ), (∀ x ∈ a, P x) → (∀ x ∈ b, P x) →
      ∀ x ∈ List.zipWith max a b, P x := by
  intro a
  induction a with
  | nil => intro b _ _ x hx; simp at hx
  | cons a0 as ih =>
    intro b ha hb x hx
    cases b with
    | nil => simp at hx
    | cons b0 bs =>
      simp only [List.zipWith_cons_cons, List.mem_cons] at hx
      rcases hx with rfl | hx
      · rcases le_total a0 b0 with hab | hab
        · rw [max_eq_right hab]; exact hb b0 (List.mem_cons_self b0 bs)
        · rw [max_eq_left hab]; exact ha a0 (List.mem_cons_self a0 as)
      · exact ih bs (fun y hy => ha y (List.mem_cons_of_mem a0 hy))
          (fun y hy => hb y (List.mem_cons_of_mem b0 hy)) x hx

lemma foldl_zipWith_max_pred (P : ℝ → Prop) (rows : List (List ℝ)) :
    ∀ acc, (∀ x ∈ acc, P x) → (∀ row ∈ rows, ∀ x ∈ row, P x) →
      ∀ x ∈ rows.foldl (fun a row => List.zipWith max a row) acc, P x := by
  induction rows with
  | nil => intro acc hacc _ x hx; exact hacc x (by simpa using hx)
  | cons r rs ih =>
    intro acc hacc hrows x hx
    simp only [List.foldl_cons] at hx
    exact ih (List.zipWith max acc r)
      (zipWith_max_pred P acc r hacc (hrows r (List.mem_cons_self r rs)))
      (fun row h => hrows row (List.mem_cons_of_mem r h)) x hx

lemma colMaxes_pred (P : ℝ → Prop) (m : List (List ℝ))
    (hm : ∀ row ∈ m, ∀ x ∈ row, P x) : ∀ x ∈ colMaxes m, P x := by
  cases m with
  | nil => simp [colMaxes]
  | cons r rs =>
    intro x hx
    exact foldl_zipWith_max_pred P rs r (hm r (List.mem_cons_self r rs))
      (fun row h => hm row (List.mem_cons_of_mem r h)) x
      (by simpa [colMaxes] using hx)

/-- C7 (amended): every score returned by ClassificationEngine.classify
lies in the closed interval [-1, 1]: the degenerate guard branches
return 0 and the main branch returns a column-wise maximum of cosine
similarities, each of which is bounded by Cauchy-Schwarz. -/
theorem c7_score_range {n : ℕ} (category_names : List String)
    (category_embeddings : Option (List (Fin n → ℝ)))
    (encode : String → Fin n → ℝ) (text : String) :
    -1 ≤ (classify category_names category_embeddings encode text).2 ∧
    (classify category_names category_embeddings encode text).2 ≤ 1 := by
  rcases category_embeddings with _ | cats
  · simp [classify]
  · simp only [classify]
    by_cases h1 : category_names.length = 0
    · simp [h1]
    · by_cases h2 : pyIsBlank text = true
      · simp [h1, h2]
      · by_cases h3 : (split_into_chunks text).isEmpty = true
        · simp [h1, h2, h3]
        · simp only [h1, h2, h3, if_false, Bool.false_eq_true]
          refine getD_pred (fun x => -1 ≤ x ∧ x ≤ 1) _ _ _ ?_ (by norm_num)
          refine colMaxes_pred _ _ ?_
          intro row hrow x hx
          rcases List.mem_map.mp hrow with ⟨ch, _, rfl⟩
          rcases List.mem_map.mp hx with ⟨c, _, rfl⟩
          exact cosineSim_bounds ch c

def oneVec : Fin 1 → ℝ := fun _ => 1

def negVec : Fin 1 → ℝ := fun _ => -1

/-- C7 counterexample: a classification run over one category whose
embedding points opposite to the chunk embedding returns a strictly
negative score, so the produced score does not lie in [0, 1]. -/
theorem c7_counterexample :
    (classify ["A"] (some [negVec]) (fun _ => oneVec) "doc").2 < 0 := by
  have hchunks : split_into_chunks "doc" = ["doc"] := by decide
  have hscore :
      (classify ["A"] (some [negVec]) (fun _ => oneVec) "doc").2 =
        cosineSim oneVec negVec := by
    simp [classify, hchunks, colMaxes, listArgmax, argmaxAux, pyIsBlank,
      isPySpace]
  have hd : dotF oneVec negVec = -1 := by
    simp [dotF, oneVec, negVec, Fin.sum_univ_one]
  have hu : vnorm oneVec = 1 := by
    simp [vnorm, dotF, oneVec, Fin.sum_univ_one]
  have hv : vnorm negVec = 1 := by
    simp [vnorm, dotF, negVec, Fin.sum_univ_one]
  rw [hscore]
  rw [cosineSim, hd, hu, hv]
  norm_num

end AutoSorter
